import Mathlib

/-!
Shallow embedding of `boto3/s3/transfer.py` (S3 transfer manager): transfer
configuration, size-based path selection, multipart partitioning arithmetic,
the bounded chunk view (`ReadFileChunk`), the progress-wrapped stream
(`StreamReaderProgress`), the serialized positioned writer
(`ThreadSafeWriter`), and the upload/download coordinators' remote-call
traces.  Machine integers are modelled as `Nat`/`Int` (Python integers are
arbitrary precision, so no wraparound is needed).
-/

namespace Boto3

/-- `MB = 1024 * 1024` from transfer.py. -/
def MB : Nat := 1024 * 1024

/-- `TransferConfig` (transfer.py lines 341-348): three fields stored by
`__init__`. -/
structure TransferConfig where
  multipart_threshold : Nat
  max_concurrency : Nat
  multipart_chunksize : Nat
deriving Repr, DecidableEq

/-- The default-constructed `TransferConfig()`: Python default arguments
`multipart_threshold=8 * MB`, `max_concurrency=1`, `multipart_chunksize=8 * MB`. -/
def TransferConfig.defaultConfig : TransferConfig :=
  { multipart_threshold := 8 * MB
    max_concurrency := 1
    multipart_chunksize := 8 * MB }

/-- `S3Transfer.__init__` (lines 353-360): `if config is None: config =
TransferConfig()`.  Only the configuration resolution is modelled; the client
and osutil collaborators are opaque. -/
def S3Transfer.resolveConfig : Option TransferConfig → TransferConfig
  | none => TransferConfig.defaultConfig
  | some c => c

/-- Which of the two transfer paths the facade routes a call to. -/
inductive TransferPath
  | direct
  | multipart
deriving Repr, DecidableEq

/-- `S3Transfer.upload_file` (lines 362-370): `if
self._osutil.get_file_size(filename) >= self._config.multipart_threshold:`
multipart upload, `else` a single `put_object`. -/
def S3Transfer.upload_path (cfg : TransferConfig) (file_size : Nat) :
    TransferPath :=
  if file_size ≥ cfg.multipart_threshold then .multipart else .direct

/-- `S3Transfer.download_file` (lines 382-394): `if object_size >=
self._config.multipart_threshold:` ranged download, `else` a single
`get_object`. -/
def S3Transfer.download_path (cfg : TransferConfig) (object_size : Nat) :
    TransferPath :=
  if object_size ≥ cfg.multipart_threshold then .multipart else .direct

/-- `num_parts = int(math.ceil(file_size / float(part_size)))` (lines 276-277,
and again for downloads at line 312).  The float division and `math.ceil` are
modelled as exact natural ceiling division `⌈file_size / part_size⌉`. -/
def num_parts (file_size part_size : Nat) : Nat :=
  (file_size + part_size - 1) / part_size

/-- The byte offset a part's chunk reader is opened at:
`part_size * (part_number - 1)` (line 294). -/
def part_start_byte (part_size part_number : Nat) : Nat :=
  part_size * (part_number - 1)

/-- `ReadFileChunk._calculate_file_size` (lines 170-173):
`max_chunk_size = actual_file_size - start_byte;
return min(max_chunk_size, requested_size)`.  Python integers are signed, so
the subtraction lives in `Int`. -/
def calculate_file_size (actual_file_size start_byte requested_size : Int) :
    Int :=
  min (actual_file_size - start_byte) requested_size

/-- The length of upload part `part_number` of a file of size `file_size`:
the size computed by the `ReadFileChunk` opened by `_upload_one_part`
(lines 291-295) at offset `part_size * (part_number - 1)` with requested
size `part_size`. -/
def part_length (file_size part_size part_number : Nat) : Int :=
  calculate_file_size file_size (part_start_byte part_size part_number)
    part_size

/-! ### Ceiling-division bounds for `num_parts` -/

lemma num_parts_pos {S P : Nat} (hS : 0 < S) (hP : 0 < P) :
    1 ≤ num_parts S P := by
  unfold num_parts
  rw [Nat.le_div_iff_mul_le hP]
  omega

lemma le_mul_num_parts (S : Nat) {P : Nat} (hP : 0 < P) :
    S ≤ P * num_parts S P := by
  unfold num_parts
  have h1 := Nat.div_add_mod (S + P - 1) P
  have h2 := Nat.mod_lt (S + P - 1) hP
  omega

lemma mul_num_parts_pred_lt {S P : Nat} (hS : 0 < S) (hP : 0 < P) :
    P * (num_parts S P - 1) < S := by
  have h0 : 1 ≤ num_parts S P := num_parts_pos hS hP
  obtain ⟨q, hq⟩ := Nat.exists_eq_add_of_le h0
  have h1 := Nat.div_add_mod (S + P - 1) P
  rw [show (S + P - 1) / P = num_parts S P from rfl, hq] at h1
  have h2 := Nat.mod_lt (S + P - 1) hP
  have h3 : P * (1 + q) = P * q + P := by ring
  rw [hq]
  simp only [Nat.add_sub_cancel_left]
  omega

lemma part_length_of_lt {S P n : Nat} (hS : 0 < S) (hP : 0 < P) (h1 : 1 ≤ n)
    (h2 : n < num_parts S P) : part_length S P n = (P : ℤ) := by
  have hlt := mul_num_parts_pred_lt hS hP
  have hn : n ≤ num_parts S P - 1 := by omega
  have hmul : P * n ≤ S := le_of_lt (lt_of_le_of_lt (Nat.mul_le_mul_left P hn) hlt)
  obtain ⟨m, rfl⟩ : ∃ m, n = m + 1 := ⟨n - 1, by omega⟩
  unfold part_length calculate_file_size part_start_byte
  simp only [Nat.add_sub_cancel]
  rw [min_eq_right]
  have hx : P * m + P ≤ S := by
    have : P * (m + 1) = P * m + P := Nat.mul_succ P m
    omega
  omega

lemma part_length_last {S P : Nat} (hS : 0 < S) (hP : 0 < P) :
    part_length S P (num_parts S P) =
      (S : ℤ) - ↑(P * (num_parts S P - 1)) := by
  have h := le_mul_num_parts S hP
  obtain ⟨m, hm⟩ : ∃ m, num_parts S P = m + 1 :=
    ⟨num_parts S P - 1, by have := num_parts_pos hS hP; omega⟩
  rw [hm] at h ⊢
  unfold part_length calculate_file_size part_start_byte
  simp only [Nat.add_sub_cancel]
  rw [min_eq_left]
  have : P * (m + 1) = P * m + P := Nat.mul_succ P m
  omega

lemma part_length_last_pos {S P : Nat} (hS : 0 < S) (hP : 0 < P) :
    0 < part_length S P (num_parts S P) := by
  rw [part_length_last hS hP]
  have := mul_num_parts_pred_lt hS hP
  omega

lemma part_length_last_le {S P : Nat} (hS : 0 < S) (hP : 0 < P) :
    part_length S P (num_parts S P) ≤ (P : ℤ) := by
  rw [part_length_last hS hP]
  have h := le_mul_num_parts S hP
  obtain ⟨m, hm⟩ : ∃ m, num_parts S P = m + 1 :=
    ⟨num_parts S P - 1, by have := num_parts_pos hS hP; omega⟩
  rw [hm] at h ⊢
  simp only [Nat.add_sub_cancel]
  have : P * (m + 1) = P * m + P := Nat.mul_succ P m
  omega

lemma sum_part_lengths {S P : Nat} (hS : 0 < S) (hP : 0 < P) :
    ∑ n ∈ Finset.Icc 1 (num_parts S P), part_length S P n = (S : ℤ) := by
  obtain ⟨m, hm⟩ : ∃ m, num_parts S P = m + 1 :=
    ⟨num_parts S P - 1, by have := num_parts_pos hS hP; omega⟩
  have hlast := part_length_last hS hP
  rw [hm] at hlast ⊢
  simp only [Nat.add_sub_cancel] at hlast
  rw [Finset.sum_Icc_succ_top (by omega : 1 ≤ m + 1)]
  have hconst : ∀ n ∈ Finset.Icc 1 m, part_length S P n = (P : ℤ) := by
    intro n hn
    rw [Finset.mem_Icc] at hn
    exact part_length_of_lt hS hP hn.1 (by omega)
  rw [Finset.sum_congr rfl hconst, Finset.sum_const, Nat.card_Icc, hlast]
  simp only [Nat.add_sub_cancel, nsmul_eq_mul]
  push_cast
  ring

lemma num_parts_eq_ceil {S P : Nat} (hS : 0 < S) (hP : 0 < P) :
    (num_parts S P : ℤ) = ⌈(S : ℚ) / (P : ℚ)⌉ := by
  have hN1 := num_parts_pos hS hP
  have hPQ : (0 : ℚ) < (P : ℚ) := by exact_mod_cast hP
  symm
  rw [Int.ceil_eq_iff]
  constructor
  · rw [lt_div_iff₀ hPQ]
    have hlt := mul_num_parts_pred_lt hS hP
    have h2 : ((P * (num_parts S P - 1) : Nat) : ℚ) < (S : ℚ) := by
      exact_mod_cast hlt
    rw [Nat.cast_mul, Nat.cast_sub hN1] at h2
    push_cast at h2 ⊢
    linarith
  · rw [div_le_iff₀ hPQ]
    have hle := le_mul_num_parts S hP
    have h2 : ((S : Nat) : ℚ) ≤ ((P * num_parts S P : Nat) : ℚ) := by
      exact_mod_cast hle
    push_cast at h2 ⊢
    linarith

/-- **C1.** For every file size `S > 0` and part size `P > 0`, the multipart
upload partitions the file into `num_parts = ⌈S/P⌉` parts numbered `1 ..
num_parts`; part `n` starts at byte offset `P*(n-1)`; every part but the last
has length `P`; the last has length `S - P*(num_parts-1)`, positive and at
most `P`; and the part lengths sum to exactly `S`. -/
theorem upload_partition_correct (S P : Nat) (hS : 0 < S) (hP : 0 < P) :
    (num_parts S P : ℤ) = ⌈(S : ℚ) / (P : ℚ)⌉ ∧
    1 ≤ num_parts S P ∧
    (∀ n, 1 ≤ n → n < num_parts S P → part_length S P n = (P : ℤ)) ∧
    part_length S P (num_parts S P) =
      (S : ℤ) - ↑(P * (num_parts S P - 1)) ∧
    0 < part_length S P (num_parts S P) ∧
    part_length S P (num_parts S P) ≤ (P : ℤ) ∧
    (∀ n, part_start_byte P n = P * (n - 1)) ∧
    ∑ n ∈ Finset.Icc 1 (num_parts S P), part_length S P n = (S : ℤ) :=
  ⟨num_parts_eq_ceil hS hP, num_parts_pos hS hP,
   fun _ h1 h2 => part_length_of_lt hS hP h1 h2,
   part_length_last hS hP, part_length_last_pos hS hP,
   part_length_last_le hS hP, fun _ => rfl, sum_part_lengths hS hP⟩

/-- Witness for C1 at the spec's scenario `S = 20_000_000`, `P = 8_000_000`
(three parts of lengths 8 MB, 8 MB, 4 MB). -/
theorem upload_partition_correct_witness :
    (0 : Nat) < 20000000 ∧ (0 : Nat) < 8000000 ∧
    ((num_parts 20000000 8000000 : ℤ) = ⌈(20000000 : ℚ) / (8000000 : ℚ)⌉ ∧
     1 ≤ num_parts 20000000 8000000 ∧
     (∀ n, 1 ≤ n → n < num_parts 20000000 8000000 →
       part_length 20000000 8000000 n = (8000000 : ℤ)) ∧
     part_length 20000000 8000000 (num_parts 20000000 8000000) =
       (20000000 : ℤ) - ↑(8000000 * (num_parts 20000000 8000000 - 1)) ∧
     0 < part_length 20000000 8000000 (num_parts 20000000 8000000) ∧
     part_length 20000000 8000000 (num_parts 20000000 8000000) ≤
       (8000000 : ℤ) ∧
     (∀ n, part_start_byte 8000000 n = 8000000 * (n - 1)) ∧
     ∑ n ∈ Finset.Icc 1 (num_parts 20000000 8000000),
       part_length 20000000 8000000 n = (20000000 : ℤ)) :=
  ⟨by norm_num, by norm_num,
   upload_partition_correct 20000000 8000000 (by norm_num) (by norm_num)⟩

/-! ### Size-based path selection and default configuration -/

/-- **C5.** For every transfer of size `S`: if `S < multipart_threshold` the
direct single-request path (`put_object` / plain `get_object`) is used; if
`S ≥ multipart_threshold` the multipart/ranged path is used; at the boundary
`S = multipart_threshold` the multipart path is chosen. -/
theorem threshold_routing (cfg : TransferConfig) (S : Nat) :
    (S < cfg.multipart_threshold →
      S3Transfer.upload_path cfg S = .direct ∧
      S3Transfer.download_path cfg S = .direct) ∧
    (S ≥ cfg.multipart_threshold →
      S3Transfer.upload_path cfg S = .multipart ∧
      S3Transfer.download_path cfg S = .multipart) ∧
    S3Transfer.upload_path cfg cfg.multipart_threshold = .multipart ∧
    S3Transfer.download_path cfg cfg.multipart_threshold = .multipart := by
  unfold S3Transfer.upload_path S3Transfer.download_path
  refine ⟨fun h => ?_, fun h => ?_, ?_, ?_⟩ <;>
    simp_all [if_pos, if_neg, Nat.not_le_of_lt]

/-- Witness for C5: with the default configuration, a 100-byte transfer is
direct and an exactly-threshold-sized transfer is multipart. -/
theorem threshold_routing_witness :
    (100 < TransferConfig.defaultConfig.multipart_threshold ∧
     S3Transfer.upload_path TransferConfig.defaultConfig 100 = .direct ∧
     S3Transfer.download_path TransferConfig.defaultConfig 100 = .direct) ∧
    (S3Transfer.upload_path TransferConfig.defaultConfig
       TransferConfig.defaultConfig.multipart_threshold = .multipart ∧
     S3Transfer.download_path TransferConfig.defaultConfig
       TransferConfig.defaultConfig.multipart_threshold = .multipart) :=
  ⟨⟨by decide, (threshold_routing TransferConfig.defaultConfig 100).1 (by decide)⟩,
   (threshold_routing TransferConfig.defaultConfig
     TransferConfig.defaultConfig.multipart_threshold).2.2⟩

/-- **C10.** A default-constructed `TransferConfig` has `multipart_threshold
= 8*1024*1024`, `multipart_chunksize = 8*1024*1024` and `max_concurrency =
1`, and an `S3Transfer` built without an explicit config uses exactly this
default configuration (so its multipart transfers run on a single worker). -/
theorem default_config_values :
    TransferConfig.defaultConfig.multipart_threshold = 8 * 1024 * 1024 ∧
    TransferConfig.defaultConfig.multipart_chunksize = 8 * 1024 * 1024 ∧
    TransferConfig.defaultConfig.max_concurrency = 1 ∧
    S3Transfer.resolveConfig none = TransferConfig.defaultConfig := by
  refine ⟨?_, ?_, rfl, rfl⟩ <;> norm_num [TransferConfig.defaultConfig, MB]

/-! ### Remote-call traces of the upload paths -/

/-- Errors a (modelled) upload can surface: the `ZeroDivisionError` raised by
`file_size / float(0.0)` when the configured part size is zero, and an
irrecoverable failure of one part's `upload_part` call. -/
inductive TransferError
  | zeroDivision
  | partFailed (part_number : Nat)
deriving Repr, DecidableEq

/-- The dict `{'ETag': etag, 'PartNumber': part_number}` built by
`_upload_one_part` (line 300); the opaque ETag string is modelled as a
natural number. -/
structure PartResult where
  ETag : Nat
  PartNumber : Nat
deriving Repr, DecidableEq

/-- The remote-store calls the transfer issues (the boto3 client methods). -/
inductive RemoteCall
  | create_multipart_upload
  | upload_part (part_number : Nat)
  | complete_multipart_upload (parts : List PartResult)
  | put_object
deriving Repr, DecidableEq

/-- `MultipartUploader._upload_one_part` (lines 291-300): one `upload_part`
call whose response ETag is paired with the part number; the remote store is
modelled by the function `etag`, which may fail. -/
def upload_one_part (etag : Nat → Except TransferError Nat)
    (part_number : Nat) : Except TransferError PartResult :=
  (etag part_number).map fun e => ⟨e, part_number⟩

/-- `for part in executor.map(upload_partial, range(1, num_parts + 1)):
parts.append(part)` (lines 283-284): `executor.map` yields results in input
order and re-raises the first failing part's exception when its result is
reached; subsequent results are discarded. -/
def collect_parts (etag : Nat → Except TransferError Nat) :
    List Nat → Except TransferError (List PartResult)
  | [] => .ok []
  | n :: ns =>
    match upload_one_part etag n with
    | .error e => .error e
    | .ok p =>
      match collect_parts etag ns with
      | .error e => .error e
      | .ok ps => .ok (p :: ps)

/-- The comparison `key=lambda x: x['PartNumber']` of line 286. -/
def part_le (a b : PartResult) : Prop :=
  a.PartNumber ≤ b.PartNumber

instance : DecidableRel part_le :=
  fun a b => inferInstanceAs (Decidable (a.PartNumber ≤ b.PartNumber))

instance : IsTotal PartResult part_le :=
  ⟨fun a b => Nat.le_total a.PartNumber b.PartNumber⟩

instance : IsTrans PartResult part_le :=
  ⟨fun _ _ _ h₁ h₂ => Nat.le_trans h₁ h₂⟩

/-- `parts.sort(key=lambda x: x['PartNumber'])` (line 286): a stable sort by
part number. -/
def sort_parts (parts : List PartResult) : List PartResult :=
  parts.insertionSort part_le

/-- `MultipartUploader.upload_file` (lines 270-289) as the sequence of
remote-store calls it issues paired with its outcome:
`create_multipart_upload` first, then (unless the `num_parts` computation
raises `ZeroDivisionError` on a zero part size) every part's `upload_part`
submitted to the pool, and `complete_multipart_upload` with the sorted part
list only when every part succeeded. -/
def MultipartUploader.upload_file (part_size file_size : Nat)
    (etag : Nat → Except TransferError Nat) :
    List RemoteCall × Option TransferError :=
  if part_size = 0 then
    ([RemoteCall.create_multipart_upload], some .zeroDivision)
  else
    let nums := List.range' 1 (num_parts file_size part_size)
    let part_calls := nums.map RemoteCall.upload_part
    match collect_parts etag nums with
    | .error e =>
      (RemoteCall.create_multipart_upload :: part_calls, some e)
    | .ok parts =>
      (RemoteCall.create_multipart_upload :: part_calls ++
        [RemoteCall.complete_multipart_upload (sort_parts parts)], none)

/-- `S3Transfer.upload_file` (lines 362-370) as a remote-call trace: the
multipart path when `file_size ≥ multipart_threshold`, otherwise one
`put_object`. -/
def S3Transfer.upload_file (cfg : TransferConfig) (file_size : Nat)
    (etag : Nat → Except TransferError Nat) :
    List RemoteCall × Option TransferError :=
  if file_size ≥ cfg.multipart_threshold then
    MultipartUploader.upload_file cfg.multipart_chunksize file_size etag
  else
    ([RemoteCall.put_object], none)

lemma collect_parts_error_of_mem {etag : Nat → Except TransferError Nat}
    {ns : List Nat} {n : Nat} {e : TransferError}
    (hn : n ∈ ns) (he : etag n = .error e) :
    ∃ e', collect_parts etag ns = .error e' := by
  induction ns with
  | nil => simp at hn
  | cons m ms ih =>
    rw [List.mem_cons] at hn
    rcases hn with rfl | hn
    · exact ⟨e, by simp [collect_parts, upload_one_part, he, Except.map]⟩
    · rcases hm : upload_one_part etag m with e₁ | p
      · exact ⟨e₁, by simp [collect_parts, hm]⟩
      · obtain ⟨e', he'⟩ := ih hn
        exact ⟨e', by simp [collect_parts, hm, he']⟩

/-- **C3.** For every multipart upload, whenever a
`complete_multipart_upload` call appears in the trace its part list is
sorted ascending by part number; and for every order in which the
part-upload acknowledgements arrive (any list of collected part results),
the list the code submits — `sort_parts` of it — is sorted ascending by part
number and is a permutation of the collected results. -/
theorem completion_parts_sorted :
    (∀ (part_size file_size : Nat) (etag : Nat → Except TransferError Nat)
       (submitted : List PartResult),
       RemoteCall.complete_multipart_upload submitted ∈
         (MultipartUploader.upload_file part_size file_size etag).1 →
       List.Sorted part_le submitted) ∧
    (∀ arrival : List PartResult,
       List.Sorted part_le (sort_parts arrival) ∧
       (sort_parts arrival).Perm arrival) := by
  constructor
  · intro part_size file_size etag submitted hmem
    by_cases hps : part_size = 0
    · simp [MultipartUploader.upload_file, hps] at hmem
    · rcases hcol : collect_parts etag
        (List.range' 1 (num_parts file_size part_size)) with e | parts
      · simp [MultipartUploader.upload_file, hps, hcol] at hmem
      · simp [MultipartUploader.upload_file, hps, hcol] at hmem
        rw [hmem]
        exact List.sorted_insertionSort part_le parts
  · intro arrival
    exact ⟨List.sorted_insertionSort part_le arrival,
           List.perm_insertionSort part_le arrival⟩

/-- Witness for C3: a two-part upload (`file_size = 7`, `part_size = 5`)
whose completion list occurs in the trace and is sorted. -/
theorem completion_parts_sorted_witness :
    (RemoteCall.complete_multipart_upload
        (sort_parts [⟨11, 1⟩, ⟨12, 2⟩]) ∈
      (MultipartUploader.upload_file 5 7 (fun n => Except.ok (n + 10))).1) ∧
    List.Sorted part_le (sort_parts [⟨12, 2⟩, ⟨11, 1⟩]) ∧
    (sort_parts [⟨12, 2⟩, ⟨11, 1⟩]).Perm [⟨12, 2⟩, ⟨11, 1⟩] :=
  ⟨by decide, completion_parts_sorted.2 [⟨12, 2⟩, ⟨11, 1⟩]⟩

/-- **C9.** If any single `upload_part` call fails irrecoverably during a
multipart upload, the `complete_multipart_upload` call is never issued and
the whole upload call fails (its outcome is an error, not success). -/
theorem failed_part_aborts_upload (part_size file_size : Nat)
    (etag : Nat → Except TransferError Nat) (n : Nat) (e : TransferError)
    (hn : n ∈ List.range' 1 (num_parts file_size part_size))
    (he : etag n = .error e) :
    (MultipartUploader.upload_file part_size file_size etag).2 ≠ none ∧
    ∀ parts, RemoteCall.complete_multipart_upload parts ∉
      (MultipartUploader.upload_file part_size file_size etag).1 := by
  by_cases hps : part_size = 0
  · exact ⟨by simp [MultipartUploader.upload_file, hps],
           fun parts => by simp [MultipartUploader.upload_file, hps]⟩
  · obtain ⟨e', he'⟩ := collect_parts_error_of_mem hn he
    refine ⟨by simp [MultipartUploader.upload_file, hps, he'], fun parts => ?_⟩
    simp [MultipartUploader.upload_file, hps, he']

/-- Witness for C9: a two-part upload whose second part fails; the outcome is
an error and no completion call appears in the trace. -/
theorem failed_part_aborts_upload_witness :
    (2 ∈ List.range' 1 (num_parts 7 5)) ∧
    (MultipartUploader.upload_file 5 7
        (fun n => if n = 2 then Except.error (.partFailed 2)
                  else Except.ok n)).2 ≠ none ∧
    ∀ parts, RemoteCall.complete_multipart_upload parts ∉
      (MultipartUploader.upload_file 5 7
        (fun n => if n = 2 then Except.error (.partFailed 2)
                  else Except.ok n)).1 :=
  ⟨by decide,
   failed_part_aborts_upload 5 7 _ 2 (.partFailed 2) (by decide) rfl⟩

/-- **C8, counterexample.** A zero-size upload is *not* rejected before any
remote-store call: under the default configuration the facade issues a
`put_object` call for a size-0 file and reports success. -/
theorem zero_size_upload_issues_remote_call :
    (S3Transfer.upload_file TransferConfig.defaultConfig 0
        (fun n => Except.ok n)).1 = [RemoteCall.put_object] ∧
    (S3Transfer.upload_file TransferConfig.defaultConfig 0
        (fun n => Except.ok n)).2 = none := by
  decide

/-- **C8, amended.** The transfer call performs no validation of file size or
part size: a zero-size upload issues a single `put_object` call and succeeds,
and a multipart upload configured with part size 0 issues
`create_multipart_upload` to the store before failing on the zero division
in the `num_parts` computation. -/
theorem upload_no_size_validation (cfg : TransferConfig)
    (etag : Nat → Except TransferError Nat) :
    (0 < cfg.multipart_threshold →
      S3Transfer.upload_file cfg 0 etag = ([RemoteCall.put_object], none)) ∧
    (∀ file_size, cfg.multipart_threshold ≤ file_size →
      cfg.multipart_chunksize = 0 →
      S3Transfer.upload_file cfg file_size etag =
        ([RemoteCall.create_multipart_upload], some .zeroDivision)) := by
  constructor
  · intro h
    rw [S3Transfer.upload_file, if_neg (by omega)]
  · intro file_size hfs hcs
    rw [S3Transfer.upload_file, if_pos hfs, hcs,
        MultipartUploader.upload_file, if_pos rfl]

/-- Witness for the amended C8 at concrete inputs: the default configuration
with a zero-size file, and a zero-chunk-size configuration with a 10-byte
file. -/
theorem upload_no_size_validation_witness :
    (0 < TransferConfig.defaultConfig.multipart_threshold ∧
     S3Transfer.upload_file TransferConfig.defaultConfig 0
         (fun n => Except.ok n) = ([RemoteCall.put_object], none)) ∧
    ((TransferConfig.mk 5 1 0).multipart_threshold ≤ 10 ∧
     S3Transfer.upload_file (TransferConfig.mk 5 1 0) 10
         (fun n => Except.ok n) =
       ([RemoteCall.create_multipart_upload], some .zeroDivision)) :=
  ⟨⟨by decide, (upload_no_size_validation _ _).1 (by decide)⟩,
   ⟨by decide, (upload_no_size_validation _ _).2 10 (by decide) rfl⟩⟩

/-! ### The bounded chunk view (`ReadFileChunk`) and the progress-wrapped
stream (`StreamReaderProgress`) -/

/-- A Python file object opened in binary mode: its bytes and the cursor
position. -/
structure FileObj where
  data : List Nat
  pos : Nat
deriving Repr, DecidableEq

/-- Python `fileobj.read(n)`: a non-negative `n` returns at most `n` bytes
from the cursor; a negative `n` reads and returns everything until EOF
(CPython semantics for a negative size argument). -/
def FileObj.readBytes (f : FileObj) (n : Int) : List Nat × FileObj :=
  let remaining := f.data.drop f.pos
  let taken := if n < 0 then remaining else remaining.take n.toNat
  (taken, { f with pos := f.pos + taken.length })

/-- Python `fileobj.seek(p)`. -/
def FileObj.seekTo (f : FileObj) (p : Nat) : FileObj :=
  { f with pos := p }

/-- `ReadFileChunk` state (lines 123-161): the wrapped file object,
`_start_byte`, `_size` (an arbitrary-precision Python int, possibly
negative — `Int`), `_amount_read`, and whether a progress callback was
attached.  Callback invocations are modelled as the list of byte counts
reported per call. -/
structure ReadFileChunk where
  fileobj : FileObj
  start_byte : Nat
  size : Int
  amount_read : Int
  has_callback : Bool
deriving Repr, DecidableEq

/-- `ReadFileChunk.__init__` (lines 154-161): store the file object, compute
`_size` via `_calculate_file_size`, seek the underlying file to
`start_byte`, start with `_amount_read = 0`. -/
def ReadFileChunk.init (fileobj : FileObj)
    (start_byte chunk_size full_file_size : Nat) (has_callback : Bool) :
    ReadFileChunk :=
  { fileobj := fileobj.seekTo start_byte
    start_byte := start_byte
    size := calculate_file_size full_file_size start_byte chunk_size
    amount_read := 0
    has_callback := has_callback }

/-- `ReadFileChunk.from_filename` (lines 163-168): open the file and pass
its actual length as `full_file_size`. -/
def ReadFileChunk.from_file (data : List Nat) (start_byte chunk_size : Nat)
    (has_callback : Bool) : ReadFileChunk :=
  ReadFileChunk.init ⟨data, 0⟩ start_byte chunk_size data.length has_callback

/-- `ReadFileChunk.read` (lines 175-184): `amount_to_read` is
`self._size - self._amount_read`, clamped by `amount` when one is given;
the underlying file is read, `_amount_read` grows by the number of bytes
returned, and the callback — when attached — is invoked with that number.
Returns the new state, the bytes returned, and the callback invocations. -/
def ReadFileChunk.read (c : ReadFileChunk) (amount : Option Int) :
    ReadFileChunk × List Nat × List Nat :=
  let amount_to_read : Int :=
    match amount with
    | none => c.size - c.amount_read
    | some a => min (c.size - c.amount_read) a
  let r := c.fileobj.readBytes amount_to_read
  let c' := { c with fileobj := r.2,
                     amount_read := c.amount_read + r.1.length }
  (c', r.1, if c.has_callback then [r.1.length] else [])

/-- `ReadFileChunk.seek` (lines 186-188): seek the underlying file to
`start_byte + p` and set `_amount_read = p`. -/
def ReadFileChunk.seek (c : ReadFileChunk) (p : Nat) : ReadFileChunk :=
  { c with fileobj := c.fileobj.seekTo (c.start_byte + p),
           amount_read := (p : Int) }

/-- `StreamReaderProgress` (lines 219-229): a readable stream plus an
optional progress callback. -/
structure StreamReaderProgress where
  stream : FileObj
  has_callback : Bool
deriving Repr, DecidableEq

/-- `StreamReaderProgress.read` (lines 225-229): forward to the wrapped
stream, invoke the callback — when attached — with the number of bytes
returned, and return them. -/
def StreamReaderProgress.read (s : StreamReaderProgress) (amount : Int) :
    StreamReaderProgress × List Nat × List Nat :=
  let r := s.stream.readBytes amount
  ({ s with stream := r.2 }, r.1,
   if s.has_callback then [r.1.length] else [])

/-- **C6, counterexample.** A zero-length read *does* invoke the progress
callback (with 0): a chunk view whose window is exhausted from the start
(window of size 0 at the end of a 3-byte file) returns no bytes from `read`
yet reports one callback invocation with amount 0. -/
theorem zero_read_invokes_callback :
    ((ReadFileChunk.from_file [1, 2, 3] 3 5 true).read none).2.1 = [] ∧
    ((ReadFileChunk.from_file [1, 2, 3] 3 5 true).read none).2.2 = [0] := by
  decide

/-- **C6, amended.** For every read on a bounded chunk view or a
progress-tagged stream with a callback attached, the callback is invoked
exactly once, with the number `n ≥ 0` of bytes the read returns — including
`n = 0` at the end of the window or stream; in particular every read
returning `n > 0` bytes reports `n`. -/
theorem progress_callback_reports_length :
    (∀ (c : ReadFileChunk) (amount : Option Int), c.has_callback = true →
      (c.read amount).2.2 = [(c.read amount).2.1.length]) ∧
    (∀ (s : StreamReaderProgress) (amount : Int), s.has_callback = true →
      (s.read amount).2.2 = [(s.read amount).2.1.length]) := by
  constructor
  · intro c amount h
    simp [ReadFileChunk.read, h]
  · intro s amount h
    simp [StreamReaderProgress.read, h]

/-- Witness for the amended C6: a concrete chunk view with a callback whose
read reports exactly the number of bytes returned. -/
theorem progress_callback_reports_length_witness :
    (ReadFileChunk.from_file [7, 8] 0 2 true).has_callback = true ∧
    ((ReadFileChunk.from_file [7, 8] 0 2 true).read none).2.2 =
      [((ReadFileChunk.from_file [7, 8] 0 2 true).read none).2.1.length] :=
  ⟨rfl, progress_callback_reports_length.1 _ none rfl⟩

/-- **C7, code bug.** Evaluating the code at the failing input: a chunk view
of window `(start_byte 0, length 4)` over a 10-byte file, after `seek 6`
(past the end of the window), returns the four underlying file bytes at
offsets 6-9 from `read` — bytes lying beyond `start_byte + length = 4` —
instead of the empty result the view's own contract promises.  (`_size -
_amount_read` is `-2`, and Python's `file.read(-2)` reads to EOF.) -/
theorem seek_past_window_read_returns_data :
    (ReadFileChunk.from_file [0, 1, 2, 3, 4, 5, 6, 7, 8, 9] 0 4 false).size
      = 4 ∧
    (((ReadFileChunk.from_file [0, 1, 2, 3, 4, 5, 6, 7, 8, 9] 0 4
        false).seek 6).read none).2.1 = [6, 7, 8, 9] := by
  decide

/-! ### The download coordinator's range partition -/

/-- The `Range` header `'bytes=%s-%s' % (start_range, end_range)` built by
`_download_range` (lines 321-328): a closed byte range, or an open-ended one
(`end_range = ''`) for the final part. -/
inductive RangeSpec
  | closed (first last : Nat)
  | openEnded (first : Nat)
deriving Repr, DecidableEq

/-- `_download_range` (lines 323-328): `start_range = i * part_size`; the
last range (`i == num_parts - 1`) is open-ended, every other one is
`[start_range, start_range + part_size - 1]`. -/
def download_range_header (part_size n_ranges i : Nat) : RangeSpec :=
  if i = n_ranges - 1 then .openEnded (i * part_size)
  else .closed (i * part_size) (i * part_size + part_size - 1)

/-- The absolute offset at which range `i`'s worker starts writing
(`current_index = start_range`, line 334). -/
def range_start (part_size i : Nat) : Nat := i * part_size

/-- The number of bytes range `i`'s worker writes (lines 336-338): the store
returns `last - first + 1 = part_size` bytes for a closed in-object range and
`object_size - first` bytes for the open-ended final range, and the loop
writes all of them at consecutive offsets from `start_range`. -/
def range_write_length (object_size part_size n_ranges i : Nat) : Nat :=
  if i = n_ranges - 1 then object_size - i * part_size else part_size

/-- **C4.** For every object length `L > 0` and part size `P > 0`, the
download coordinator issues `⌈L/P⌉` ranged requests; every range before the
last requests the closed byte range `[i*P, i*P + P - 1]`, the final range is
open-ended starting at `(n-1)*P`, and the byte offsets written across all
ranges cover `[0, L)` exactly, with no overlap and no gap. -/
theorem download_ranges_partition (L P : Nat) (hL : 0 < L) (hP : 0 < P) :
    ((num_parts L P : ℤ) = ⌈(L : ℚ) / (P : ℚ)⌉) ∧
    (∀ i, i < num_parts L P - 1 →
      download_range_header P (num_parts L P) i =
        .closed (i * P) (i * P + P - 1)) ∧
    (download_range_header P (num_parts L P) (num_parts L P - 1) =
      .openEnded ((num_parts L P - 1) * P)) ∧
    (∀ j, j < L ↔ ∃ i, i < num_parts L P ∧
      range_start P i ≤ j ∧
      j < range_start P i + range_write_length L P (num_parts L P) i) ∧
    (∀ i₁ i₂ j, i₁ < num_parts L P → i₂ < num_parts L P →
      range_start P i₁ ≤ j →
      j < range_start P i₁ + range_write_length L P (num_parts L P) i₁ →
      range_start P i₂ ≤ j →
      j < range_start P i₂ + range_write_length L P (num_parts L P) i₂ →
      i₁ = i₂) := by
  have hub : L ≤ P * num_parts L P := le_mul_num_parts L hP
  have hlb : P * (num_parts L P - 1) < L := mul_num_parts_pred_lt hL hP
  have hN : 1 ≤ num_parts L P := num_parts_pos hL hP
  refine ⟨num_parts_eq_ceil hL hP, ?_, ?_, ?_, ?_⟩
  · intro i hi
    rw [download_range_header, if_neg (by omega)]
  · rw [download_range_header, if_pos rfl]
  · -- exact coverage of [0, L)
    intro j
    constructor
    · intro hj
      refine ⟨j / P, ?_, ?_, ?_⟩
      · rw [Nat.div_lt_iff_lt_mul hP]
        calc j < L := hj
          _ ≤ P * num_parts L P := hub
          _ = num_parts L P * P := Nat.mul_comm _ _
      · rw [range_start]
        have h1 := Nat.div_add_mod j P
        have h2 := Nat.mod_lt j hP
        have hc : j / P * P = P * (j / P) := Nat.mul_comm _ _
        omega
      · have h1 := Nat.div_add_mod j P
        have h2 := Nat.mod_lt j hP
        have hc : j / P * P = P * (j / P) := Nat.mul_comm _ _
        rw [range_start, range_write_length]
        by_cases hlast : j / P = num_parts L P - 1
        · rw [if_pos hlast, hlast]
          have hle : (num_parts L P - 1) * P ≤ L := by
            rw [Nat.mul_comm]; omega
          rw [hlast] at hc
          omega
        · rw [if_neg hlast]
          omega
    · rintro ⟨i, hiN, hstart, hend⟩
      rw [range_start] at hstart hend
      rw [range_write_length] at hend
      by_cases hlast : i = num_parts L P - 1
      · rw [if_pos hlast] at hend
        have hle : i * P ≤ L := by
          rw [hlast, Nat.mul_comm]; omega
        omega
      · rw [if_neg hlast] at hend
        have h1 : i + 1 ≤ num_parts L P - 1 := by omega
        have h2 : (i + 1) * P ≤ (num_parts L P - 1) * P :=
          Nat.mul_le_mul_right P h1
        have h3 : (num_parts L P - 1) * P = P * (num_parts L P - 1) :=
          Nat.mul_comm _ _
        have h4 : (i + 1) * P = i * P + P := Nat.succ_mul i P
        omega
  · -- disjointness
    intro i₁ i₂ j h₁ h₂ hs₁ he₁ hs₂ he₂
    rw [range_start] at hs₁ hs₂
    rw [range_write_length] at he₁ he₂
    rcases Nat.lt_trichotomy i₁ i₂ with hlt | heq | hgt
    · exfalso
      have hne : i₁ ≠ num_parts L P - 1 := by omega
      rw [range_start, if_neg hne] at he₁
      have h2 : (i₁ + 1) * P ≤ i₂ * P := Nat.mul_le_mul_right P (by omega)
      have h4 : (i₁ + 1) * P = i₁ * P + P := Nat.succ_mul i₁ P
      omega
    · exact heq
    · exfalso
      have hne : i₂ ≠ num_parts L P - 1 := by omega
      rw [range_start, if_neg hne] at he₂
      have h2 : (i₂ + 1) * P ≤ i₁ * P := Nat.mul_le_mul_right P (by omega)
      have h4 : (i₂ + 1) * P = i₂ * P + P := Nat.succ_mul i₂ P
      omega

/-- Witness for C4 at the spec's scenario `L = 17`, `P = 10`: two ranges,
`[0, 9]` closed and `bytes=10-` open-ended, covering `[0, 17)` exactly. -/
theorem download_ranges_partition_witness :
    (0 : Nat) < 17 ∧ (0 : Nat) < 10 ∧
    (((num_parts 17 10 : ℤ) = ⌈(17 : ℚ) / (10 : ℚ)⌉) ∧
     (∀ i, i < num_parts 17 10 - 1 →
       download_range_header 10 (num_parts 17 10) i =
         .closed (i * 10) (i * 10 + 10 - 1)) ∧
     (download_range_header 10 (num_parts 17 10) (num_parts 17 10 - 1) =
       .openEnded ((num_parts 17 10 - 1) * 10)) ∧
     (∀ j, j < 17 ↔ ∃ i, i < num_parts 17 10 ∧
       range_start 10 i ≤ j ∧
       j < range_start 10 i + range_write_length 17 10 (num_parts 17 10) i) ∧
     (∀ i₁ i₂ j, i₁ < num_parts 17 10 → i₂ < num_parts 17 10 →
       range_start 10 i₁ ≤ j →
       j < range_start 10 i₁ + range_write_length 17 10 (num_parts 17 10) i₁ →
       range_start 10 i₂ ≤ j →
       j < range_start 10 i₂ + range_write_length 17 10 (num_parts 17 10) i₂ →
       i₁ = i₂)) :=
  ⟨by decide, by decide,
   download_ranges_partition 17 10 (by decide) (by decide)⟩

/-! ### The serialized positioned writer (`ThreadSafeWriter`)

`ThreadSafeWriter.pwrite` (lines 237-240) holds the writer's single lock
around "seek to offset, then write", so each `pwrite` is atomic with respect
to every other `pwrite` on the same writer.  A concurrent execution of the
download workers' `pwrite` calls is therefore equivalent to executing them
sequentially in *some* order — a permutation of the issued writes. -/

/-- One positioned write: the `(data, offset)` pair passed to `pwrite`. -/
structure PWrite where
  data : List Nat
  offset : Nat
deriving Repr, DecidableEq

/-- The output file handle opened for writing: its content (a byte per
offset, `none` where nothing has been written) and its single shared
cursor. -/
structure WriteStream where
  content : Nat → Option Nat
  pos : Nat

/-- Python `stream.seek(p)`. -/
def WriteStream.seekTo (s : WriteStream) (p : Nat) : WriteStream :=
  { s with pos := p }

/-- Python `stream.write(data)`: bytes land at the cursor, which advances. -/
def WriteStream.write (s : WriteStream) (data : List Nat) : WriteStream :=
  { content := fun i =>
      if s.pos ≤ i ∧ i < s.pos + data.length then data[i - s.pos]?
      else s.content i
    pos := s.pos + data.length }

/-- `ThreadSafeWriter.pwrite` (lines 237-240): under the lock, `seek(offset)`
then `write(data)` — one atomic step. -/
def ThreadSafeWriter.pwrite (s : WriteStream) (w : PWrite) : WriteStream :=
  (s.seekTo w.offset).write w.data

/-- A sequential execution order of a transfer's `pwrite` calls. -/
def ThreadSafeWriter.run (s : WriteStream) (ws : List PWrite) : WriteStream :=
  ws.foldl ThreadSafeWriter.pwrite s

/-- The effect of one atomic `pwrite` on the file content alone. -/
def write_bytes (c : Nat → Option Nat) (w : PWrite) : Nat → Option Nat :=
  fun i =>
    if w.offset ≤ i ∧ i < w.offset + w.data.length then w.data[i - w.offset]?
    else c i

/-- Two positioned writes cover disjoint offset ranges. -/
def PWrite.disjoint (w₁ w₂ : PWrite) : Prop :=
  w₁.offset + w₁.data.length ≤ w₂.offset ∨
  w₂.offset + w₂.data.length ≤ w₁.offset

instance (w₁ w₂ : PWrite) : Decidable (w₁.disjoint w₂) :=
  inferInstanceAs (Decidable (_ ∨ _))

lemma run_content (s : WriteStream) (ws : List PWrite) :
    (ThreadSafeWriter.run s ws).content = ws.foldl write_bytes s.content := by
  induction ws generalizing s with
  | nil => rfl
  | cons w ws ih =>
    show (ThreadSafeWriter.run (ThreadSafeWriter.pwrite s w) ws).content = _
    rw [ih]
    rfl

lemma write_bytes_comm {w₁ w₂ : PWrite} (h : w₁.disjoint w₂)
    (c : Nat → Option Nat) :
    write_bytes (write_bytes c w₁) w₂ = write_bytes (write_bytes c w₂) w₁ := by
  funext i
  simp only [write_bytes]
  split_ifs <;> try rfl
  all_goals (exfalso; rcases h with h | h <;> omega)

/-- **C2.** Every `pwrite` is the atomic pair "seek to offset, write data"
under the writer's lock, so a concurrent execution of N workers' positioned
writes is a sequential execution of some permutation of them; when the
writes cover pairwise-disjoint offset ranges, every permutation yields a
file byte-for-byte identical to the sequential reference order. -/
theorem concurrent_disjoint_writes_deterministic (s : WriteStream)
    (ws ws' : List PWrite) (hperm : ws.Perm ws')
    (hdisj : ∀ w₁ ∈ ws, ∀ w₂ ∈ ws, w₁ ≠ w₂ → w₁.disjoint w₂) :
    ∀ i, (ThreadSafeWriter.run s ws').content i =
         (ThreadSafeWriter.run s ws).content i := by
  have h : (ThreadSafeWriter.run s ws).content =
      (ThreadSafeWriter.run s ws').content := by
    rw [run_content, run_content]
    refine List.Perm.foldl_eq' hperm ?_ s.content
    intro x hx y hy c
    by_cases hxy : x = y
    · rw [hxy]
    · exact write_bytes_comm (hdisj x hx y hy hxy) c
  intro i
  rw [h]

/-- Witness for C2: two disjoint writes (`[1,2]` at offset 0, `[3,4]` at
offset 2) executed in either order produce identical file content. -/
theorem concurrent_disjoint_writes_deterministic_witness :
    (([⟨[1, 2], 0⟩, ⟨[3, 4], 2⟩] : List PWrite).Perm
      [⟨[3, 4], 2⟩, ⟨[1, 2], 0⟩]) ∧
    (∀ w₁ ∈ ([⟨[1, 2], 0⟩, ⟨[3, 4], 2⟩] : List PWrite),
      ∀ w₂ ∈ ([⟨[1, 2], 0⟩, ⟨[3, 4], 2⟩] : List PWrite),
      w₁ ≠ w₂ → w₁.disjoint w₂) ∧
    ∀ i, (ThreadSafeWriter.run ⟨fun _ => none, 0⟩
            [⟨[3, 4], 2⟩, ⟨[1, 2], 0⟩]).content i =
         (ThreadSafeWriter.run ⟨fun _ => none, 0⟩
            [⟨[1, 2], 0⟩, ⟨[3, 4], 2⟩]).content i :=
  ⟨by decide, by decide,
   concurrent_disjoint_writes_deterministic ⟨fun _ => none, 0⟩ _ _
     (by decide) (by decide)⟩

end Boto3
